import Mathlib

/-!
# edgedetect: a shallow embedding of `src/edgedetect.cpp`

The development follows the source file function by function:

* `makeOutputFileName` (lines 363-374),
* `parseCommandLineArguments` (lines 300-361),
* `processImage` (lines 58-298), split into the blocks the source separates by
  comments: host layout (81-103), kernel selection (156-214), download
  (219-249), release (251-258), output matrix and write (263-280), timing
  report (286-295),
* `readInputFileList` (lines 377-407).

Calls into OpenCV, CUDA, NPP, the C++ streams and the clock are external.  Their
results are read from an explicit environment, and what the program asks of them
is recorded as a list of events.  A `std::string` is a list of characters.
-/

namespace EdgeDetect

/-- A `std::string`, as the list of its characters. -/
abbrev Str := List Char

/-! ## Constants of the source -/

/-- The value of `#define SCHARR_FILTER 0`. -/
def SCHARR_FILTER : Int := 0

/-- The value of `#define SOBEL_FILTER 1`. -/
def SOBEL_FILTER : Int := 1

/-- The value of `#define PREWITT_FILTER 2`. -/
def PREWITT_FILTER : Int := 2

/-- The value of `#define ROBERTS_FILTER 3`. -/
def ROBERTS_FILTER : Int := 3

/-- The value of `EXIT_SUCCESS`. -/
def EXIT_SUCCESS : Int := 0

/-- The value of `EXIT_FAILURE`. -/
def EXIT_FAILURE : Int := 1

/-- The value of `cudaSuccess`. -/
def cudaSuccess : Nat := 0

/-- The value of `NPP_SUCCESS`. -/
def NPP_SUCCESS : Int := 0

/-- The value of `std::string::npos`, the largest `size_t` (64 bits). -/
def npos : Nat := 2 ^ 64 - 1

/-- Conversion of a `size_t` to `int` (32 bits, two's complement), as in
`int separator = input_file.find_last_of(...)`. -/
def toInt (n : Nat) : Int :=
  if n % 2 ^ 32 < 2 ^ 31 then ((n % 2 ^ 32 : Nat) : Int) else ((n % 2 ^ 32 : Nat) : Int) - 2 ^ 32

/-- Conversion of an `int` to `size_t` (64 bits), as the usual arithmetic
conversions do in `separator == std::string::npos` and in the arguments of
`substr`. -/
def toSizeT (i : Int) : Nat := (i % 2 ^ 64).toNat

/-! ## makeOutputFileName -/

/-- The scan behind `std::string::find_last_of(c)`: `i` is the index of the
head of the remaining characters, `best` the last match seen so far. -/
def find_last_of_go (c : Char) : Str → Nat → Nat → Nat
  | [], _, best => best
  | x :: xs, i, best => find_last_of_go c xs (i + 1) (if x = c then i else best)

/-- The result of `s.find_last_of(c)`: the index of the last occurrence of `c`
in `s`, or `npos` when there is none. -/
def find_last_of (s : Str) (c : Char) : Nat := find_last_of_go c s 0 npos

/-- The result of `s.substr(pos, count)`: `none` stands for the
`std::out_of_range` exception thrown when `pos > s.size()`. -/
def substr (s : Str) (pos count : Nat) : Option Str :=
  if s.length < pos then none else some ((s.drop pos).take count)

/-- The function `makeOutputFileName` of the source.  `none` stands for an
exception escaping from `substr`.  The sum `separator + 1` is taken in the
integers: it stays within `int` unless the last dot sits at index `2^31 - 1`
modulo `2^32`. -/
def makeOutputFileName (input_file : Str) : Option Str :=
  let separator : Int := toInt (find_last_of input_file '.')
  if toSizeT separator = npos then
    some (input_file ++ "_edges".toList)
  else
    match substr input_file 0 (toSizeT separator),
          substr input_file (toSizeT (separator + 1)) input_file.length with
    | some pfx, some extension => some (pfx ++ "_edges.".toList ++ extension)
    | _, _ => none

/-! ## parseCommandLineArguments -/

/-- How a function of the source gives up control: by `return`, by a call of
`exit`, or by an exception nobody catches. -/
inductive Outcome where
  | returned (code : Int)
  | exited (code : Int)
  | terminated
  deriving DecidableEq, Repr

/-- What `parseCommandLineArguments` gives back: the returned tuple, or the
exit status when it calls `exit` itself. -/
inductive ParseResult where
  | returned (input_file output_file : Str) (filter_type : Int) (y_axis show_timing : Bool)
  | exited (code : Int)
  deriving DecidableEq, Repr

/-- The value of `a[0]` for a NUL-terminated argument `a`: its first character,
or the terminator when `a` is empty. -/
def firstChar (a : Str) : Char := a.headD (Char.ofNat 0)

/-- The `while (argp < argc)` loop of `parseCommandLineArguments`, over the
arguments from `argv[argp]` on. -/
def parseOptions (input_file output_file : Str) :
    List Str → Int → Bool → Bool → ParseResult
  | [], filter_type, y_axis, show_timing =>
      .returned input_file output_file filter_type y_axis show_timing
  | a :: rest, filter_type, y_axis, show_timing =>
      if a = "-h".toList then .returned [] [] 0 false false
      else if a = "-p".toList then
        parseOptions input_file output_file rest PREWITT_FILTER y_axis show_timing
      else if a = "-r".toList then
        parseOptions input_file output_file rest ROBERTS_FILTER y_axis show_timing
      else if a = "-sc".toList then
        parseOptions input_file output_file rest SCHARR_FILTER y_axis show_timing
      else if a = "-so".toList then
        parseOptions input_file output_file rest SOBEL_FILTER y_axis show_timing
      else if a = "-t".toList then
        parseOptions input_file output_file rest filter_type y_axis true
      else if a = "-x".toList then
        parseOptions input_file output_file rest filter_type false show_timing
      else if a = "-y".toList then
        parseOptions input_file output_file rest filter_type true show_timing
      else .exited EXIT_SUCCESS

/-- The function `parseCommandLineArguments` of the source; `argv` includes the
program name and `argc` is its length. -/
def parseCommandLineArguments (argv : List Str) : ParseResult :=
  let argc := argv.length
  if argc ≤ 1 ∨ firstChar (argv.getD 1 []) = '-' then
    .returned [] [] 0 false false
  else
    let input_file := argv.getD 1 []
    if 2 < argc ∧ firstChar (argv.getD 2 []) ≠ '-' then
      parseOptions input_file (argv.getD 2 []) (argv.drop 3) SOBEL_FILTER false false
    else
      parseOptions input_file [] (argv.drop 2) SOBEL_FILTER false false

/-! ## Memory

Sizes, strides and offsets are natural numbers: the image sizes the source
keeps in `int` variables are those of a decoded image, and their products are
taken to fit. -/

/-- A block of bytes addressed by offset from its base pointer.  `none` is a
byte whose value is indeterminate (never written since `malloc`). -/
abbrev Buf := Nat → Option Nat

/-- A block fresh from `malloc`: every byte indeterminate. -/
def malloc : Buf := fun _ => none

/-- The call `memcpy(dst + d, src + s, n)`: bytes `d .. d+n-1` of `dst` take the
values of bytes `s .. s+n-1` of `src`; the others keep theirs. -/
def memcpy (dst : Buf) (d : Nat) (src : Buf) (s n : Nat) : Buf :=
  fun k => if d ≤ k ∧ k < d + n then src (s + (k - d)) else dst k

/-- The CUDA runtime call `cudaMemcpy2D(dst, dpitch, src, spitch, width, height,
kind)` when it succeeds: for each of the `height` rows, `width` bytes go from
`src + row*spitch` to `dst + row*dpitch`. -/
def cudaMemcpy2D (dst : Buf) (dpitch : Nat) (src : Buf) (spitch width : Nat) : Nat → Buf
  | 0 => dst
  | row + 1 =>
      memcpy (cudaMemcpy2D dst dpitch src spitch width row) (row * dpitch) src (row * spitch) width

/-- The matrix `cv::imread` returns at line 69, as far as `processImage`
reads it: `rows`, `cols`, `elemSize()` and the bytes behind `data`.  OpenCV
allocates a decoded image with `Mat::create`, which stores the rows one after
another without padding, so the row step is not a field of its own. -/
structure Mat where
  rows : Nat
  cols : Nat
  elemSize : Nat
  data : Buf

/-- The row step behind `ptr(i)`, in bytes from one row to the next: for a
matrix allocated by `Mat::create`, the size of a row. -/
def Mat.step (m : Mat) : Nat := m.cols * m.elemSize

/-- The value of `isContinuous()`: OpenCV sets the flag when the matrix has at
most one row or each row starts where the row before it ends. -/
def Mat.isContinuous (m : Mat) : Bool :=
  decide (m.rows ≤ 1) || decide (m.step = m.cols * m.elemSize)

/-- The loop `for (int i = 0; i < input_rows; i++) memcpy(input_pointer +
i*host_input_stride, input_image.ptr(i), input_element_size);` of lines 98-100,
after its first `n` iterations, starting from the block `malloc` returned. -/
def copyRows (input_image : Mat) (host_input_stride input_element_size : Nat) : Nat → Buf
  | 0 => malloc
  | i + 1 =>
      memcpy (copyRows input_image host_input_stride input_element_size i)
        (i * host_input_stride) input_image.data (i * input_image.step) input_element_size

/-- The host buffer handed to the upload, with what lines 81-103 compute for it. -/
structure HostInput where
  input_pointer : Buf
  host_input_stride : Nat
  input_length : Nat
  allocated : Bool

/-- Lines 81-103 of `processImage`: the host buffer for the upload is the
image storage itself when the matrix is continuous, and otherwise a block of
`input_length*input_element_size` bytes filled by the loop `copyRows`. -/
def hostInput (input_image : Mat) : HostInput :=
  let input_rows := input_image.rows
  let input_columns := input_image.cols
  let input_length := input_image.rows * input_image.cols
  let input_element_size := input_image.elemSize
  let host_input_stride := input_element_size * input_columns
  if input_image.isContinuous then
    { input_pointer := input_image.data, host_input_stride := host_input_stride,
      input_length := input_length, allocated := false }
  else
    { input_pointer := copyRows input_image host_input_stride input_element_size input_rows,
      host_input_stride := host_input_stride,
      input_length := input_length, allocated := true }

/-- The value of `sizeof(Npp16s)`. -/
def sizeof_Npp16s : Nat := 2

/-- Lines 223-228 of `processImage`: the host stride of the output. -/
def outputStride (filter_type : Int) (input_columns : Nat) : Nat :=
  if filter_type = SCHARR_FILTER then input_columns * sizeof_Npp16s else input_columns

/-- The host buffer the download fills, with its stride and size in bytes. -/
structure HostOutput where
  output_pointer : Buf
  output_stride : Nat
  output_size : Nat

/-- Lines 219-249 of `processImage`: a block of `input_rows*output_stride`
bytes is allocated and `cudaMemcpy2D` is asked to copy `input_rows` rows of
`input_columns` bytes from the device output buffer (pitch
`dev_output_stride`) into it.  `err` is the status the copy returns; the block
is left as allocated when the copy fails. -/
def download (filter_type : Int) (input_rows input_columns : Nat)
    (dev_output : Buf) (dev_output_stride : Nat) (err : Nat) : HostOutput :=
  let output_stride := outputStride filter_type input_columns
  let output_size := input_rows * output_stride
  let output_pointer := malloc
  { output_pointer :=
      if err = cudaSuccess then
        cudaMemcpy2D output_pointer output_stride dev_output dev_output_stride input_columns
          input_rows
      else output_pointer,
    output_stride := output_stride,
    output_size := output_size }

/-! ## processImage -/

/-- The three device pointers of `processImage`. -/
inductive DevPtr where
  | dev_input_pointer
  | dev_output_pointer
  | dev_output_pointer_16
  deriving DecidableEq, Repr

/-- The eight NPP filter primitives `processImage` can call, named as in the
source without the `nppiFilter` head. -/
inductive NppFilter where
  | ScharrVertBorder_8u16s_C1R
  | ScharrHorizBorder_8u16s_C1R
  | SobelVertBorder_8u_C1R
  | SobelHorizBorder_8u_C1R
  | PrewittVertBorder_8u_C1R
  | PrewittHorizBorder_8u_C1R
  | RobertsUpBorder_8u_C1R
  | RobertsDownBorder_8u_C1R
  deriving DecidableEq, Repr

/-- The two OpenCV matrix types of the output image. -/
inductive MatType where
  | CV_8UC1
  | CV_16SC1
  deriving DecidableEq, Repr

/-- Bytes per sample of a matrix type: 8-bit unsigned is 1, 16-bit signed is 2. -/
def MatType.elemSize : MatType → Nat
  | .CV_8UC1 => 1
  | .CV_16SC1 => 2

/-- Direction of a `cudaMemcpy2D`. -/
inductive CopyKind where
  | cudaMemcpyHostToDevice
  | cudaMemcpyDeviceToHost
  deriving DecidableEq, Repr

/-- What `processImage` asks of the outside world, in program order. -/
inductive Event where
  | cout (text : Str)
  | coutStatus (status : Int)
  | coutErrorString (err : Nat)
  | coutDuration (text : Str) (nanoseconds : Int)
  | imread (file : Str)
  | hostMalloc (bytes : Nat)
  | hostFree
  | nppiMalloc_8u_C1 (p : DevPtr) (cols rows : Nat)
  | nppiMalloc_16s_C1 (p : DevPtr) (cols rows : Nat)
  | cudaMemcpy2D (kind : CopyKind) (width height : Nat)
  | nppiFilter (op : NppFilter)
  | nppiFree (p : DevPtr)
  | imwrite (file : Str) (type : MatType)
  deriving DecidableEq, Repr

/-- The six readings of the clock `processImage` takes, in nanoseconds. -/
structure Clock where
  start_time : Int
  load_time : Int
  memcpyHostToDevice_time : Int
  kernel_time : Int
  memcpyDeviceToHost_time : Int
  end_time : Int

/-- What the outside world answers during one run of `processImage`: the
matrix `imread` decodes (`none` when its `data` is null), the status of the
upload, of the filter and of the download, whether `imwrite` succeeds, and the
clock. -/
structure ImageEnv where
  imread : Option Mat
  upload_err : Nat
  npp_status : Int
  download_err : Nat
  write_success : Bool
  clock : Clock

/-- Lines 156-214 of `processImage`: allocation of the device output buffer
and the call of the selected filter.  `status` is what the filter returns. -/
def runKernel (status : Int) (filter_type : Int) (y_axis : Bool)
    (input_columns input_rows : Nat) : List Event :=
  if filter_type = SCHARR_FILTER then
    [Event.nppiMalloc_16s_C1 .dev_output_pointer_16 input_columns input_rows] ++
      (if y_axis then
        [Event.nppiFilter .ScharrVertBorder_8u16s_C1R, Event.coutStatus status]
      else
        [Event.nppiFilter .ScharrHorizBorder_8u16s_C1R, Event.coutStatus status])
  else
    [Event.nppiMalloc_8u_C1 .dev_output_pointer input_columns input_rows] ++
      (if filter_type = SOBEL_FILTER then
        (if y_axis then [Event.nppiFilter .SobelVertBorder_8u_C1R]
         else [Event.nppiFilter .SobelHorizBorder_8u_C1R])
      else if filter_type = PREWITT_FILTER then
        (if y_axis then [Event.nppiFilter .PrewittVertBorder_8u_C1R]
         else [Event.nppiFilter .PrewittHorizBorder_8u_C1R])
      else if filter_type = ROBERTS_FILTER then
        (if y_axis then [Event.nppiFilter .RobertsUpBorder_8u_C1R]
         else [Event.nppiFilter .RobertsDownBorder_8u_C1R])
      else [])

/-- Lines 251-258 of `processImage`: release of the device buffers. -/
def releaseDevice (filter_type : Int) : List Event :=
  [Event.nppiFree .dev_input_pointer] ++
    (if filter_type = SCHARR_FILTER then [Event.nppiFree .dev_output_pointer_16]
     else [Event.nppiFree .dev_output_pointer])

/-- Lines 263-270 of `processImage`: the type of the output matrix. -/
def outputMatType (filter_type : Int) : MatType :=
  if filter_type = SCHARR_FILTER then .CV_16SC1 else .CV_8UC1

/-- Lines 289-294 of `processImage`: the six lines of the timing report, each
with its text and the duration printed in it. -/
def timingReport (c : Clock) : List (Str × Int) :=
  [ ("Image processing took".toList, c.end_time - c.start_time),
    ("to load the image.".toList, c.load_time - c.start_time),
    ("to transfer it to the device.".toList, c.memcpyHostToDevice_time - c.load_time),
    ("to execute the kernel.".toList, c.kernel_time - c.memcpyHostToDevice_time),
    ("to transfer it back to the host.".toList, c.memcpyDeviceToHost_time - c.kernel_time),
    ("to write the image to disk.".toList, c.end_time - c.memcpyHostToDevice_time) ]

/-- The function `processImage` of the source, as the events it causes and
the way it gives up control. -/
def processImage (env : ImageEnv) (input_filename output_filename : Str) (filter_type : Int)
    (y_axis show_timing : Bool) : List Event × Outcome :=
  match (if output_filename.length = 0 then makeOutputFileName input_filename
         else some output_filename) with
  | none => ([], .terminated)
  | some output_filename =>
    match env.imread with
    | none =>
        ([Event.imread input_filename,
          Event.cout ("Input image ".toList ++ input_filename ++ " failed to load.\n".toList)],
         .returned EXIT_FAILURE)
    | some input_image =>
        let input_rows := input_image.rows
        let input_columns := input_image.cols
        let host := hostInput input_image
        let loaded : List Event :=
          [Event.imread input_filename,
           Event.cout ("Input image ".toList ++ input_filename ++ " loaded.\n".toList)] ++
          (if host.allocated then [Event.hostMalloc (host.input_length * input_image.elemSize)]
           else []) ++
          [Event.nppiMalloc_8u_C1 .dev_input_pointer input_columns input_rows,
           Event.cudaMemcpy2D .cudaMemcpyHostToDevice host.host_input_stride input_rows]
        if env.upload_err ≠ cudaSuccess then
          (loaded ++
            [Event.cout "Failed to copy input image to device.\n".toList,
             Event.coutErrorString env.upload_err],
           .exited EXIT_FAILURE)
        else
          let filtered : List Event :=
            loaded ++ runKernel env.npp_status filter_type y_axis input_columns input_rows
          let downloaded : List Event :=
            filtered ++
            [Event.hostMalloc (input_rows * outputStride filter_type input_columns),
             Event.cudaMemcpy2D .cudaMemcpyDeviceToHost input_columns input_rows] ++
            (if env.download_err ≠ cudaSuccess then
              [Event.cout "Failed to copy output image from device to host.\n".toList]
             else [])
          let released : List Event := downloaded ++ releaseDevice filter_type
          let written : List Event :=
            released ++ [Event.imwrite output_filename (outputMatType filter_type)]
          if env.write_success then
            (written ++
              [Event.cout ("Output image ".toList ++ output_filename ++
                 " successfully written.\n".toList),
               Event.hostFree] ++
              (if show_timing then
                (timingReport env.clock).map (fun d => Event.coutDuration d.1 d.2)
               else []),
             .returned EXIT_SUCCESS)
          else
            (written ++
              [Event.cout ("Output image ".toList ++ output_filename ++
                 " could not be written.\n".toList)],
             .exited EXIT_FAILURE)

/-! ## readInputFileList -/

/-- A `std::ifstream`: the characters not yet extracted and two state bits.
A stream that was never opened has nothing to extract. -/
structure IfStream where
  buf : Str
  eofbit : Bool
  failbit : Bool
  deriving DecidableEq, Repr

/-- The value of `stream.good()`. -/
def IfStream.good (s : IfStream) : Bool := !s.eofbit && !s.failbit

/-- The value of `stream.fail()`, the negation of `static_cast<bool>(stream)`. -/
def IfStream.fail (s : IfStream) : Bool := s.failbit

/-- Splits the remaining characters at the first newline: the characters
before it, and what follows it (`none` when there is no newline). -/
def untilNewline : Str → Str × Option Str
  | [] => ([], none)
  | c :: cs =>
      if c = '\n' then ([], some cs)
      else ((c :: (untilNewline cs).1), (untilNewline cs).2)

/-- The call `std::getline(stream, str)`.  When the stream is not good the
sentry fails: `failbit` is set and `str` is left as it was.  Otherwise `str` is
erased and characters are extracted up to and including the next newline,
which is not stored; reaching the end of the file sets `eofbit`, and having
extracted nothing at all sets `failbit`. -/
def getline (s : IfStream) (str : Str) : IfStream × Str :=
  if s.good then
    match untilNewline s.buf with
    | (line, some rest) => ({ buf := rest, eofbit := false, failbit := false }, line)
    | (line, none) => ({ buf := [], eofbit := true, failbit := line.isEmpty }, line)
  else ({ s with failbit := true }, str)

/-- One call of `processImage` made by the batch loop: its two file name
arguments and what the call did. -/
structure Call where
  next_input : Str
  next_output : Str
  result : List Event × Outcome

/-- What the outside world answers during one run of `readInputFileList`:
the contents of the files that can be opened (`none` for one that cannot), and
the answers during the `i`-th call of `processImage`, counted from 0. -/
structure BatchEnv where
  files : Str → Option Str
  image : Nat → ImageEnv

/-- The loop `while (getline(inputs, next_input)) { getline(outputs,
next_output); processImage(...); }` of lines 402-405.  `i` counts the calls
made so far.  A call that does not return ends the process, and with it the
loop.  `none` only when the iteration bound `fuel` runs out. -/
def readLoop (env : BatchEnv) (filter_type : Int) (y_axis show_timing : Bool) :
    Nat → Nat → IfStream → IfStream → Str → Str → Option (List Call × Outcome)
  | 0, _, _, _, _, _ => none
  | fuel + 1, i, inputs, outputs, next_input, next_output =>
      let gi := getline inputs next_input
      if gi.1.fail then some ([], .returned EXIT_SUCCESS)
      else
        let go := getline outputs next_output
        let r := processImage (env.image i) gi.2 go.2 filter_type y_axis show_timing
        let call : Call := { next_input := gi.2, next_output := go.2, result := r }
        match r.2 with
        | .returned _ =>
            match readLoop env filter_type y_axis show_timing fuel (i + 1) gi.1 go.1 gi.2 go.2 with
            | some (calls, outcome) => some (call :: calls, outcome)
            | none => none
        | outcome => some ([call], outcome)

/-- A stream just constructed and, when `contents` is given, opened on a file
with these contents. -/
def openStream (contents : Option Str) : IfStream :=
  { buf := contents.getD [], eofbit := false, failbit := false }

/-- The function `readInputFileList` of the source: the calls of `processImage`
it makes and the way it gives up control.  The loop is given one iteration per
character of the input list and one more, which is enough for it to end. -/
def readInputFileList (env : BatchEnv) (input_file output_file : Str) (filter_type : Int)
    (y_axis show_timing : Bool) : Option (List Call × Outcome) :=
  let output_file_exists : Bool := output_file.length ≠ 0
  match env.files input_file with
  | none => some ([], .exited EXIT_FAILURE)
  | some inputs =>
      if output_file_exists ∧ env.files output_file = none then
        some ([], .exited EXIT_FAILURE)
      else
        readLoop env filter_type y_axis show_timing (inputs.length + 1) 0
          (openStream (some inputs))
          (openStream (if output_file_exists then env.files output_file else none)) [] []

/-! ## Vocabulary of the properties

The definitions below do not come from the source.  They name what the
properties speak about: the filter families, what is counted in a list of
events, the lines of a text file, the options of the command line. -/

/-- The four filter families of a filter request. -/
inductive Family where
  | Scharr
  | Sobel
  | Prewitt
  | Roberts
  deriving DecidableEq, Repr

/-- The integer the source passes around for a family. -/
def Family.code : Family → Int
  | .Scharr => SCHARR_FILTER
  | .Sobel => SOBEL_FILTER
  | .Prewitt => PREWITT_FILTER
  | .Roberts => ROBERTS_FILTER

/-- The filter primitives called in a list of events, in order. -/
def filtersInvoked (events : List Event) : List NppFilter :=
  events.filterMap (fun e => match e with
    | Event.nppiFilter op => some op
    | _ => none)

/-- Whether an event is a device buffer allocation. -/
def Event.isDeviceMalloc : Event → Bool
  | .nppiMalloc_8u_C1 _ _ _ => true
  | .nppiMalloc_16s_C1 _ _ _ => true
  | _ => false

/-- Whether an event is a device buffer release. -/
def Event.isDeviceFree : Event → Bool
  | .nppiFree _ => true
  | _ => false

/-- Number of device buffer allocations in a list of events. -/
def deviceAllocations (events : List Event) : Nat := events.countP Event.isDeviceMalloc

/-- Number of device buffer releases in a list of events. -/
def deviceReleases (events : List Event) : Nat := events.countP Event.isDeviceFree

/-- The files written by `imwrite` in a list of events, in order. -/
def imagesWritten (events : List Event) : List Str :=
  events.filterMap (fun e => match e with
    | Event.imwrite file _ => some file
    | _ => none)

/-- Whether an event is the print of a filter status code. -/
def Event.isStatusPrint : Event → Bool
  | .coutStatus _ => true
  | _ => false

/-- A list of events without the prints of a filter status code. -/
def withoutStatus (events : List Event) : List Event :=
  events.filter (fun e => !e.isStatusPrint)

/-- Whether control came back to the caller. -/
def Outcome.isReturned : Outcome → Bool
  | .returned _ => true
  | _ => false

/-- The lines of a text file: the runs of characters between newlines.  A
newline ends a line, so a file ending in a newline has no empty line after it;
the last line need not be ended by one; the empty file has no line. -/
def linesOf : Str → List Str
  | [] => []
  | c :: cs =>
      if c = '\n' then [] :: linesOf cs
      else
        match linesOf cs with
        | [] => [[c]]
        | l :: ls => (c :: l) :: ls

/-- The seven options of the command line other than `-h`. -/
inductive Opt where
  | p
  | r
  | sc
  | so
  | x
  | y
  | t
  deriving DecidableEq, Repr

/-- An option as it is typed. -/
def Opt.text : Opt → Str
  | .p => "-p".toList
  | .r => "-r".toList
  | .sc => "-sc".toList
  | .so => "-so".toList
  | .x => "-x".toList
  | .y => "-y".toList
  | .t => "-t".toList

/-- The family an option names, when it is a family option. -/
def Opt.family : Opt → Option Int
  | .p => some PREWITT_FILTER
  | .r => some ROBERTS_FILTER
  | .sc => some SCHARR_FILTER
  | .so => some SOBEL_FILTER
  | _ => none

/-- The axis an option names, when it is an axis option: `true` is vertical. -/
def Opt.axis : Opt → Option Bool
  | .x => some false
  | .y => some true
  | _ => none

/-- The family named by the last family option, Sobel when there is none. -/
def lastFamily (opts : List Opt) : Int :=
  ((opts.filterMap Opt.family).getLast?).getD SOBEL_FILTER

/-- The axis named by the last of `-x` and `-y`, horizontal when there is none. -/
def lastAxis (opts : List Opt) : Bool :=
  ((opts.filterMap Opt.axis).getLast?).getD false

/-- Whether `-t` occurs. -/
def timingRequested (opts : List Opt) : Bool := opts.contains Opt.t

/-- How the processing of one image ends, from the answers of the outside
world alone: a decode failure returns a failure, an upload failure and a write
failure leave through `exit`, anything else returns a success. -/
def imageOutcome (e : ImageEnv) : Outcome :=
  match e.imread with
  | none => .returned EXIT_FAILURE
  | some _ =>
      if e.upload_err ≠ cudaSuccess then .exited EXIT_FAILURE
      else if e.write_success then .returned EXIT_SUCCESS
      else .exited EXIT_FAILURE

/-- The calls of `processImage` a batch makes run through the lines of the
input list until the first call that does not return:
the inputs of the calls are an initial segment of `lines`, in order, and the
whole of `lines` with a successful return of the batch when every call returned;
the `j`-th call is `processImage` on its two names with the `j`-th answers;
every call but the last returned; a last call that did not return decides how
the batch ends; and a call on a name shorter than `2^31` ends as `imageOutcome`
tells. -/
def RunsUntilFirstExit (env : BatchEnv) (filter_type : Int) (y_axis show_timing : Bool)
    (lines : List Str) (calls : List Call) (outcome : Outcome) : Prop :=
  (∃ rest, lines = calls.map Call.next_input ++ rest ∧
    ((∀ c ∈ calls, c.result.2.isReturned = true) →
      rest = [] ∧ outcome = .returned EXIT_SUCCESS)) ∧
  (∀ j c, calls[j]? = some c →
    c.result = processImage (env.image j) c.next_input c.next_output filter_type y_axis
      show_timing) ∧
  (∀ j c, calls[j]? = some c → j + 1 < calls.length → c.result.2.isReturned = true) ∧
  (∀ c, calls.getLast? = some c → c.result.2.isReturned = false → outcome = c.result.2) ∧
  (∀ j c, calls[j]? = some c → c.next_input.length < 2 ^ 31 →
    c.result.2 = imageOutcome (env.image j))

/-! ## Sample inputs -/

/-- A clock ticking once between readings. -/
def sampleClock : Clock :=
  { start_time := 0, load_time := 1, memcpyHostToDevice_time := 2, kernel_time := 3,
    memcpyDeviceToHost_time := 4, end_time := 5 }

/-- Memory holding the value `k + 1` in byte `k`. -/
def rampBytes : Buf := fun k => some (k + 1)

/-- A continuous 8-bit image of one pixel. -/
def pixelImage : Mat :=
  { rows := 1, cols := 1, elemSize := 1, data := rampBytes }

/-- A run in which every external call succeeds. -/
def successEnv : ImageEnv :=
  { imread := some pixelImage, upload_err := cudaSuccess, npp_status := NPP_SUCCESS,
    download_err := cudaSuccess, write_success := true, clock := sampleClock }

/-- A run in which the image cannot be decoded. -/
def decodeFailureEnv : ImageEnv := { successEnv with imread := none }

/-- A run in which the upload to the device fails with error 1. -/
def uploadFailureEnv : ImageEnv := { successEnv with upload_err := 1 }

/-- A run in which the filter returns the status -1. -/
def kernelFailureEnv : ImageEnv := { successEnv with npp_status := -1 }

/-- A run in which the download fails with error 1 and the write fails too. -/
def downloadWriteFailureEnv : ImageEnv :=
  { successEnv with download_err := 1, write_success := false }

/-- A file system holding the text `inputs` as `in.txt` and, when given, the
text `outputs` as `out.txt`, and no other file. -/
def sampleFiles (inputs : String) (outputs : Option String) : Str → Option Str :=
  fun name =>
    if name = "in.txt".toList then some inputs.toList
    else if name = "out.txt".toList then outputs.map String.toList
    else none

/-- A batch of two images whose first upload fails. -/
def uploadFailureBatch : BatchEnv :=
  { files := sampleFiles "a.png\nb.png\n" none,
    image := fun i => if i = 0 then uploadFailureEnv else successEnv }

/-- A batch of three images whose second cannot be decoded. -/
def decodeFailureBatch : BatchEnv :=
  { files := sampleFiles "a.png\nb.png\nc.png\n" none,
    image := fun i => if i = 1 then decodeFailureEnv else successEnv }

/-- A batch of two images with an output list of one line that no newline
ends. -/
def shortOutputListBatch : BatchEnv :=
  { files := sampleFiles "a.png\nb.png\n" (some "x.png"),
    image := fun _ => successEnv }

/-- A batch of two images with an output list of one line ended by a
newline. -/
def endedOutputListBatch : BatchEnv :=
  { files := sampleFiles "a.png\nb.png\n" (some "x.png\n"),
    image := fun _ => successEnv }

/-! # Properties -/

/-! ## Filter selection -/

/-- The filter primitive the source calls for a family and an axis (`true` is
vertical), read off the branches of lines 164-214. -/
theorem filtersInvoked_runKernel (status : Int) (f : Family) (y_axis : Bool) (cols rows : Nat) :
    filtersInvoked (runKernel status f.code y_axis cols rows) =
      [match f, y_axis with
       | .Scharr, true => .ScharrVertBorder_8u16s_C1R
       | .Scharr, false => .ScharrHorizBorder_8u16s_C1R
       | .Sobel, true => .SobelVertBorder_8u_C1R
       | .Sobel, false => .SobelHorizBorder_8u_C1R
       | .Prewitt, true => .PrewittVertBorder_8u_C1R
       | .Prewitt, false => .PrewittHorizBorder_8u_C1R
       | .Roberts, true => .RobertsUpBorder_8u_C1R
       | .Roberts, false => .RobertsDownBorder_8u_C1R] := by
  cases f <;> cases y_axis <;> rfl

/-- When the image is decoded and uploaded, the filter calls of `processImage`
are those of its kernel block, and the image it writes has the type of lines
263-270. -/
theorem processImage_runs_selected_filter (env : ImageEnv) (input_image : Mat)
    (input_filename output_filename : Str) (filter_type : Int) (y_axis show_timing : Bool)
    (hname : output_filename ≠ [])
    (himg : env.imread = some input_image) (hup : env.upload_err = cudaSuccess) :
    filtersInvoked (processImage env input_filename output_filename filter_type y_axis
      show_timing).1 =
      filtersInvoked (runKernel env.npp_status filter_type y_axis input_image.cols
        input_image.rows) ∧
    Event.imwrite output_filename (outputMatType filter_type) ∈
      (processImage env input_filename output_filename filter_type y_axis show_timing).1 := by
  have hlen : output_filename.length ≠ 0 := fun h => hname (List.length_eq_zero.mp h)
  have hr : filtersInvoked (releaseDevice filter_type) = [] := by
    unfold releaseDevice filtersInvoked
    split_ifs <;> rfl
  have happ : ∀ a b : List Event, filtersInvoked (a ++ b) = filtersInvoked a ++ filtersInvoked b :=
    fun a b => List.filterMap_append a b _
  unfold processImage
  simp only [hlen, if_false, himg, hup, ne_eq, not_true_eq_false]
  split_ifs <;>
    refine ⟨?_, by simp⟩ <;>
    simp only [happ, hr] <;>
    simp [filtersInvoked]

/-- Claim C1.  For each of the four families and each axis the selection logic
of `processImage` calls exactly one filter primitive, the eight pairs call
eight different primitives, and the output matrix is 16-bit signed (2 bytes per
sample, also in the host stride) exactly for Scharr and 8-bit unsigned (1 byte
per sample) for the other three. -/
theorem filter_selection_total_and_distinct :
    (∀ (status : Int) (f : Family) (y_axis : Bool) (cols rows : Nat),
      ∃ op, filtersInvoked (runKernel status f.code y_axis cols rows) = [op]) ∧
    (∀ (s1 s2 : Int) (f1 f2 : Family) (y1 y2 : Bool) (c1 r1 c2 r2 : Nat),
      filtersInvoked (runKernel s1 f1.code y1 c1 r1) =
        filtersInvoked (runKernel s2 f2.code y2 c2 r2) → f1 = f2 ∧ y1 = y2) ∧
    (∀ f : Family, (outputMatType f.code = MatType.CV_16SC1 ↔ f = Family.Scharr) ∧
      (outputMatType f.code = MatType.CV_8UC1 ↔ f ≠ Family.Scharr)) ∧
    (∀ (f : Family) (cols : Nat),
      outputStride f.code cols = cols * (outputMatType f.code).elemSize) ∧
    MatType.elemSize MatType.CV_16SC1 = 2 ∧ MatType.elemSize MatType.CV_8UC1 = 1 := by
  refine ⟨fun status f y c r => ⟨_, filtersInvoked_runKernel status f y c r⟩, ?_, ?_, ?_, rfl, rfl⟩
  · intro s1 s2 f1 f2 y1 y2 c1 r1 c2 r2 h
    rw [filtersInvoked_runKernel, filtersInvoked_runKernel] at h
    cases f1 <;> cases f2 <;> cases y1 <;> cases y2 <;>
      first
      | exact ⟨rfl, rfl⟩
      | exact absurd h (by decide)
  · intro f
    cases f <;> decide
  · intro f cols
    cases f <;> simp [outputStride, outputMatType, Family.code, MatType.elemSize, sizeof_Npp16s,
      SCHARR_FILTER, SOBEL_FILTER, PREWITT_FILTER, ROBERTS_FILTER]

/-! ## Device buffers -/

/-- The kernel block allocates one device buffer and releases none. -/
theorem runKernel_allocates_one (status filter_type : Int) (y_axis : Bool) (cols rows : Nat) :
    deviceAllocations (runKernel status filter_type y_axis cols rows) = 1 ∧
    deviceReleases (runKernel status filter_type y_axis cols rows) = 0 := by
  unfold runKernel deviceAllocations deviceReleases
  split_ifs <;> exact ⟨rfl, rfl⟩

/-- The release block releases two device buffers and allocates none. -/
theorem releaseDevice_releases_two (filter_type : Int) :
    deviceAllocations (releaseDevice filter_type) = 0 ∧
    deviceReleases (releaseDevice filter_type) = 2 := by
  unfold releaseDevice deviceAllocations deviceReleases
  split_ifs <;> exact ⟨rfl, rfl⟩

/-- Claim C2, at the run where the upload fails.  One device buffer has been
allocated, `processImage` leaves through `exit`, and no release was made. -/
theorem upload_failure_releases_nothing :
    uploadFailureEnv.upload_err ≠ cudaSuccess ∧
    deviceAllocations
      (processImage uploadFailureEnv "a.png".toList [] SOBEL_FILTER false false).1 = 1 ∧
    deviceReleases
      (processImage uploadFailureEnv "a.png".toList [] SOBEL_FILTER false false).1 = 0 ∧
    (processImage uploadFailureEnv "a.png".toList [] SOBEL_FILTER false false).2 =
      Outcome.exited EXIT_FAILURE := by
  decide

/-- Claim C2, amended.  For every image and every outcome of the download and
of the write, when the upload does not fail the number of device buffer
releases made before `processImage` gives up control equals the number of
allocations; once a device buffer has been allocated, both are two. -/
theorem device_buffers_released_unless_upload_fails (env : ImageEnv)
    (input_filename output_filename : Str) (filter_type : Int) (y_axis show_timing : Bool)
    (hup : env.upload_err = cudaSuccess) :
    deviceReleases (processImage env input_filename output_filename filter_type y_axis
      show_timing).1 =
      deviceAllocations (processImage env input_filename output_filename filter_type y_axis
        show_timing).1 ∧
    (0 < deviceAllocations (processImage env input_filename output_filename filter_type y_axis
        show_timing).1 →
      deviceAllocations (processImage env input_filename output_filename filter_type y_axis
        show_timing).1 = 2) := by
  have hk := runKernel_allocates_one env.npp_status filter_type y_axis
  have hr := releaseDevice_releases_two filter_type
  unfold processImage
  cases (if output_filename.length = 0 then makeOutputFileName input_filename
         else some output_filename) with
  | none => simp [deviceAllocations, deviceReleases]
  | some name =>
    cases himg : env.imread with
    | none => simp [deviceAllocations, deviceReleases, Event.isDeviceMalloc, Event.isDeviceFree]
    | some input_image =>
      simp only [hup, ne_eq, not_true_eq_false, if_false]
      unfold deviceAllocations deviceReleases at *
      split_ifs <;>
        simp [List.countP_append, List.countP_cons, Event.isDeviceMalloc, Event.isDeviceFree,
          hk, hr, List.countP_map, Function.comp_def]

/-- Claim C2, amended, at a run whose upload succeeds and whose download and
write both fail: two allocations, two releases. -/
theorem device_buffers_released_unless_upload_fails_witness :
    downloadWriteFailureEnv.upload_err = cudaSuccess ∧
    deviceReleases
      (processImage downloadWriteFailureEnv "a.png".toList [] SCHARR_FILTER true true).1 =
      deviceAllocations
        (processImage downloadWriteFailureEnv "a.png".toList [] SCHARR_FILTER true true).1 ∧
    deviceAllocations
      (processImage downloadWriteFailureEnv "a.png".toList [] SCHARR_FILTER true true).1 = 2 :=
  ⟨rfl,
   (device_buffers_released_unless_upload_fails downloadWriteFailureEnv "a.png".toList []
     SCHARR_FILTER true true rfl).1,
   (device_buffers_released_unless_upload_fails downloadWriteFailureEnv "a.png".toList []
     SCHARR_FILTER true true rfl).2 (by decide)⟩

/-! ## Download -/

/-- A successful `cudaMemcpy2D` puts byte `j` of source row `r` at byte `j` of
destination row `r`, for every byte within the width. -/
theorem cudaMemcpy2D_copied (dst src : Buf) (dpitch spitch width : Nat) (hw : width ≤ dpitch) :
    ∀ height r j, r < height → j < width →
      cudaMemcpy2D dst dpitch src spitch width height (r * dpitch + j) = src (r * spitch + j) := by
  intro height
  induction height with
  | zero => intro r j hr; omega
  | succ h ih =>
    intro r j hr hj
    unfold cudaMemcpy2D memcpy
    by_cases hrh : r = h
    · subst hrh
      rw [if_pos ⟨by omega, by omega⟩]
      congr 1; omega
    · have hlt : r < h := by omega
      have hmul : (r + 1) * dpitch ≤ h * dpitch := Nat.mul_le_mul_right _ hlt
      have hexp : (r + 1) * dpitch = r * dpitch + dpitch := by ring
      rw [if_neg (by omega)]
      exact ih r j hlt hj

/-- For the three 8-bit families the download fills the host buffer row by
row: it has `rows*cols` bytes, stride `cols`, and byte `r*cols + j` is device
byte `r*pitch + j`. -/
theorem download_8u_copies_rows (filter_type : Int) (rows cols pitch : Nat) (dev_output : Buf)
    (hf : filter_type ≠ SCHARR_FILTER) :
    (download filter_type rows cols dev_output pitch cudaSuccess).output_size = rows * cols ∧
    (download filter_type rows cols dev_output pitch cudaSuccess).output_stride = cols ∧
    ∀ r j, r < rows → j < cols →
      (download filter_type rows cols dev_output pitch cudaSuccess).output_pointer (r * cols + j) =
        dev_output (r * pitch + j) := by
  simp only [download, outputStride, if_neg hf, if_true, true_and]
  intro r j hr hj
  exact cudaMemcpy2D_copied _ _ _ _ _ (Nat.le_refl _) rows r j hr hj

/-- Claim C3, at a Scharr image of one pixel with device pitch 512.  The host
buffer has 2 bytes and stride 2; byte 0 is device byte 0, but byte 1, the
second byte of the sample, is not copied: it is still as `malloc` left it,
while device byte 1 holds 2. -/
theorem scharr_download_copies_half_row :
    (download SCHARR_FILTER 1 1 rampBytes 512 cudaSuccess).output_size = 2 ∧
    (download SCHARR_FILTER 1 1 rampBytes 512 cudaSuccess).output_stride = 2 ∧
    (download SCHARR_FILTER 1 1 rampBytes 512 cudaSuccess).output_pointer (0 * 1 * 2 + 0) =
      rampBytes (0 * 512 + 0) ∧
    (download SCHARR_FILTER 1 1 rampBytes 512 cudaSuccess).output_pointer (0 * 1 * 2 + 1) = none ∧
    rampBytes (0 * 512 + 1) = some 2 := by
  decide

/-! ## Host layout -/

/-- The duration printed as the time to write the image is counted from the
end of the upload. -/
theorem timingReport_durations (c : Clock) :
    (timingReport c).map Prod.snd =
      [c.end_time - c.start_time, c.load_time - c.start_time,
       c.memcpyHostToDevice_time - c.load_time, c.kernel_time - c.memcpyHostToDevice_time,
       c.memcpyDeviceToHost_time - c.kernel_time, c.end_time - c.memcpyHostToDevice_time] := by
  rfl

/-- Claim C10, at the instants 0, 1, 2, 3, 4, 5.  The total printed is 5 and the
first four durations are 1 each, but the duration printed for the write is 3,
not `end - after-download = 1`, and the five durations add up to 7. -/
theorem write_duration_counted_from_upload :
    (timingReport sampleClock).map Prod.snd = [5, 1, 1, 1, 1, 3] ∧
    sampleClock.end_time - sampleClock.memcpyDeviceToHost_time = 1 ∧
    (((timingReport sampleClock).map Prod.snd).drop 1).sum = 7 := by
  decide

/-! ## Filter status -/

/-- Apart from the print of the status code, the kernel block causes the same
events whatever the filter returns. -/
theorem withoutStatus_runKernel (s1 s2 : Int) (filter_type : Int) (y_axis : Bool)
    (cols rows : Nat) :
    withoutStatus (runKernel s1 filter_type y_axis cols rows) =
      withoutStatus (runKernel s2 filter_type y_axis cols rows) := by
  unfold runKernel withoutStatus
  split_ifs <;> rfl

/-- Claim C4, at a Sobel run whose filter returns the status -1.  The status is
not a success, yet `processImage` returns `EXIT_SUCCESS` and writes the output
image. -/
theorem kernel_failure_still_writes :
    kernelFailureEnv.npp_status ≠ NPP_SUCCESS ∧
    (processImage kernelFailureEnv "a.png".toList [] SOBEL_FILTER false false).2 =
      Outcome.returned EXIT_SUCCESS ∧
    imagesWritten (processImage kernelFailureEnv "a.png".toList [] SOBEL_FILTER false false).1 =
      ["a_edges.png".toList] := by
  decide

/-- With any status in place of the one the filter returned, `processImage`
gives up control the same way, writes the same images and causes the same
events, apart from the print of the status code. -/
theorem processImage_status_invariant (env : ImageEnv) (status : Int)
    (input_filename output_filename : Str) (filter_type : Int) (y_axis show_timing : Bool) :
    (processImage { env with npp_status := status } input_filename output_filename filter_type
      y_axis show_timing).2 =
      (processImage env input_filename output_filename filter_type y_axis show_timing).2 ∧
    imagesWritten (processImage { env with npp_status := status } input_filename output_filename
      filter_type y_axis show_timing).1 =
      imagesWritten (processImage env input_filename output_filename filter_type y_axis
        show_timing).1 ∧
    withoutStatus (processImage { env with npp_status := status } input_filename output_filename
      filter_type y_axis show_timing).1 =
      withoutStatus (processImage env input_filename output_filename filter_type y_axis
        show_timing).1 := by
  have hw : ∀ es : List Event, imagesWritten es = imagesWritten (withoutStatus es) := by
    intro es
    induction es with
    | nil => rfl
    | cons e es ih =>
      cases e <;> simp_all [imagesWritten, withoutStatus, Event.isStatusPrint]
  have key :
      (processImage { env with npp_status := status } input_filename output_filename filter_type
        y_axis show_timing).2 =
        (processImage env input_filename output_filename filter_type y_axis show_timing).2 ∧
      withoutStatus (processImage { env with npp_status := status } input_filename
        output_filename filter_type y_axis show_timing).1 =
        withoutStatus (processImage env input_filename output_filename filter_type y_axis
          show_timing).1 := by
    have hk := withoutStatus_runKernel status env.npp_status filter_type y_axis
    have happ : ∀ a b : List Event, withoutStatus (a ++ b) = withoutStatus a ++ withoutStatus b :=
      fun a b => List.filter_append a b
    unfold processImage
    cases (if output_filename.length = 0 then makeOutputFileName input_filename
           else some output_filename) with
    | none => exact ⟨rfl, rfl⟩
    | some name =>
      cases himg : env.imread with
      | none => simp only [himg]; exact ⟨trivial, trivial⟩
      | some input_image =>
        simp only [himg]
        split_ifs <;> exact ⟨rfl, by simp only [happ, hk]⟩
  exact ⟨key.1, by rw [hw, key.2, ← hw], key.2⟩

/-- The kernel block prints the status it got for Scharr, prints no status
for another family, and writes no image. -/
theorem runKernel_status_print (status filter_type : Int) (y_axis : Bool) (cols rows : Nat) :
    (filter_type = SCHARR_FILTER →
      Event.coutStatus status ∈ runKernel status filter_type y_axis cols rows) ∧
    (filter_type ≠ SCHARR_FILTER →
      ∀ s, Event.coutStatus s ∉ runKernel status filter_type y_axis cols rows) ∧
    imagesWritten (runKernel status filter_type y_axis cols rows) = [] := by
  unfold runKernel imagesWritten
  split_ifs <;> simp_all

/-- The release block prints no status and writes no image. -/
theorem releaseDevice_quiet (filter_type : Int) :
    (∀ s, Event.coutStatus s ∉ releaseDevice filter_type) ∧
    imagesWritten (releaseDevice filter_type) = [] := by
  unfold releaseDevice imagesWritten
  split_ifs <;> simp

/-- Claim C4, amended.  For every image that is decoded and uploaded and every
filter request, whatever status the filter returns, a success or not,
processing goes on as after a success: `processImage` asks for the download,
releases the two device buffers, writes the output image under its name and
with the type of the family, and returns a success when the write succeeds (it
leaves through `exit` when the write fails).  The status is printed for
Scharr and for no other family, and with `NPP_SUCCESS` in its place the
outcome and all other events are the same. -/
theorem kernel_failure_continues_to_write (env : ImageEnv) (input_image : Mat)
    (input_filename output_filename name : Str) (filter_type : Int) (y_axis show_timing : Bool)
    (hname : (if output_filename.length = 0 then makeOutputFileName input_filename
      else some output_filename) = some name)
    (himg : env.imread = some input_image) (hup : env.upload_err = cudaSuccess) :
    Event.cudaMemcpy2D CopyKind.cudaMemcpyDeviceToHost input_image.cols input_image.rows ∈
      (processImage env input_filename output_filename filter_type y_axis show_timing).1 ∧
    deviceReleases
      (processImage env input_filename output_filename filter_type y_axis show_timing).1 = 2 ∧
    Event.imwrite name (outputMatType filter_type) ∈
      (processImage env input_filename output_filename filter_type y_axis show_timing).1 ∧
    imagesWritten
      (processImage env input_filename output_filename filter_type y_axis show_timing).1 =
      [name] ∧
    (processImage env input_filename output_filename filter_type y_axis show_timing).2 =
      (if env.write_success then Outcome.returned EXIT_SUCCESS
       else Outcome.exited EXIT_FAILURE) ∧
    (filter_type = SCHARR_FILTER → Event.coutStatus env.npp_status ∈
      (processImage env input_filename output_filename filter_type y_axis show_timing).1) ∧
    (filter_type ≠ SCHARR_FILTER → ∀ s, Event.coutStatus s ∉
      (processImage env input_filename output_filename filter_type y_axis show_timing).1) ∧
    (processImage { env with npp_status := NPP_SUCCESS } input_filename output_filename
      filter_type y_axis show_timing).2 =
      (processImage env input_filename output_filename filter_type y_axis show_timing).2 ∧
    withoutStatus (processImage { env with npp_status := NPP_SUCCESS } input_filename
      output_filename filter_type y_axis show_timing).1 =
      withoutStatus (processImage env input_filename output_filename filter_type y_axis
        show_timing).1 := by
  have hinv := processImage_status_invariant env NPP_SUCCESS input_filename output_filename
    filter_type y_axis show_timing
  have hk := runKernel_status_print env.npp_status filter_type y_axis input_image.cols
    input_image.rows
  have hka := runKernel_allocates_one env.npp_status filter_type y_axis input_image.cols
    input_image.rows
  have hr := releaseDevice_quiet filter_type
  have hra := releaseDevice_releases_two filter_type
  have happ : ∀ a b : List Event, imagesWritten (a ++ b) = imagesWritten a ++ imagesWritten b :=
    fun a b => List.filterMap_append a b _
  refine ⟨?_, ?_, ?_, ?_, ?_, ?_, ?_, hinv.1, hinv.2.2⟩
  · unfold processImage
    simp only [hname, himg, hup, ne_eq, not_true_eq_false, if_false]
    split_ifs <;> simp
  · unfold processImage
    simp only [hname, himg, hup, ne_eq, not_true_eq_false, if_false]
    unfold deviceReleases at *
    split_ifs <;>
      simp [List.countP_append, List.countP_cons, Event.isDeviceFree, hka, hra,
        List.countP_map, Function.comp_def]
  · unfold processImage
    simp only [hname, himg, hup, ne_eq, not_true_eq_false, if_false]
    split_ifs <;> simp
  · unfold processImage
    simp only [hname, himg, hup, ne_eq, not_true_eq_false, if_false]
    split_ifs <;>
      simp only [happ, hk.2.2, hr.2] <;>
      simp [imagesWritten]
  · unfold processImage
    simp only [hname, himg, hup, ne_eq, not_true_eq_false, if_false]
    split_ifs <;> rfl
  · intro hf
    have := hk.1 hf
    unfold processImage
    simp only [hname, himg, hup, ne_eq, not_true_eq_false, if_false]
    split_ifs <;> simp [this]
  · intro hf s
    have h1 := hk.2.1 hf s
    have h2 := hr.1 s
    unfold processImage
    simp only [hname, himg, hup, ne_eq, not_true_eq_false, if_false]
    split_ifs <;> simp [h1, h2]

/-- Claim C4, amended, at a Scharr run whose filter returns the status -1: the
image is decoded and uploaded, the status -1 is printed, the output image
`a_edges.png` is written and the result is a success. -/
theorem kernel_failure_continues_to_write_witness :
    Event.coutStatus (-1) ∈
      (processImage kernelFailureEnv "a.png".toList [] SCHARR_FILTER true false).1 ∧
    imagesWritten (processImage kernelFailureEnv "a.png".toList [] SCHARR_FILTER true false).1 =
      ["a_edges.png".toList] ∧
    (processImage kernelFailureEnv "a.png".toList [] SCHARR_FILTER true false).2 =
      Outcome.returned EXIT_SUCCESS :=
  ⟨(kernel_failure_continues_to_write kernelFailureEnv pixelImage "a.png".toList []
      "a_edges.png".toList SCHARR_FILTER true false (by decide) rfl rfl).2.2.2.2.2.1 rfl,
   (kernel_failure_continues_to_write kernelFailureEnv pixelImage "a.png".toList []
      "a_edges.png".toList SCHARR_FILTER true false (by decide) rfl rfl).2.2.2.1,
   (kernel_failure_continues_to_write kernelFailureEnv pixelImage "a.png".toList []
      "a_edges.png".toList SCHARR_FILTER true false (by decide) rfl rfl).2.2.2.2.1⟩

/-! ## Output file name -/

/-- A scan over characters that are all different from `c` keeps `best`. -/
theorem find_last_of_go_absent (s : Str) (c : Char) (h : c ∉ s) (i best : Nat) :
    find_last_of_go c s i best = best := by
  induction s generalizing i best with
  | nil => rfl
  | cons x xs ih =>
    simp only [List.mem_cons, not_or] at h
    simp only [find_last_of_go]
    rw [if_neg (fun e => h.1 e.symm)]
    exact ih h.2 _ _

/-- A scan ends on the index of the last occurrence of `c`. -/
theorem find_last_of_go_last (p e : Str) (c : Char) (h : c ∉ e) (i best : Nat) :
    find_last_of_go c (p ++ c :: e) i best = i + p.length := by
  induction p generalizing i best with
  | nil => simp [find_last_of_go, find_last_of_go_absent e c h]
  | cons x xs ih =>
    show find_last_of_go c (xs ++ c :: e) (i + 1) _ = i + (xs.length + 1)
    rw [ih]; omega

/-- An index below `2^31` survives the conversion to `int` and back. -/
theorem toSizeT_toInt (n : Nat) (h : n < 2 ^ 31) : toSizeT (toInt n) = n := by
  unfold toSizeT toInt
  have : n % 2 ^ 32 = n := Nat.mod_eq_of_lt (by omega)
  rw [this]; simp only [h, if_true]; omega

/-- An index below `2^31`, converted to `int` and incremented, converts back
to its successor. -/
theorem toSizeT_toInt_succ (n : Nat) (h : n < 2 ^ 31) : toSizeT (toInt n + 1) = n + 1 := by
  unfold toSizeT toInt
  have : n % 2 ^ 32 = n := Nat.mod_eq_of_lt (by omega)
  rw [this]; simp only [h, if_true]; omega

/-- A name without a dot gets `_edges` appended. -/
theorem makeOutputFileName_no_dot (s : Str) (h : '.' ∉ s) :
    makeOutputFileName s = some (s ++ "_edges".toList) := by
  unfold makeOutputFileName find_last_of
  rw [find_last_of_go_absent s _ h]
  simp only
  rw [if_pos (by decide)]

/-- A name shorter than `2^31` gets `_edges` inserted before its last dot. -/
theorem makeOutputFileName_last_dot (p e : Str) (h : '.' ∉ e)
    (hlen : (p ++ ".".toList ++ e).length < 2 ^ 31) :
    makeOutputFileName (p ++ ".".toList ++ e) = some (p ++ "_edges.".toList ++ e) := by
  have hl : p.length < 2 ^ 31 := by
    simp only [List.length_append] at hlen; omega
  have hf : find_last_of (p ++ ".".toList ++ e) '.' = p.length := by
    unfold find_last_of
    have := find_last_of_go_last p e '.' h 0 npos
    simpa using this
  unfold makeOutputFileName
  simp only [hf, toSizeT_toInt _ hl, toSizeT_toInt_succ _ hl]
  have hne : p.length ≠ npos := by unfold npos; omega
  rw [if_neg hne]
  simp [substr]
  omega

/-- A string in which `c` occurs splits at the last occurrence of `c`. -/
theorem split_at_last (s : Str) (c : Char) (h : c ∈ s) :
    ∃ p e, s = p ++ c :: e ∧ c ∉ e := by
  induction s with
  | nil => simp at h
  | cons x xs ih =>
    by_cases hx : c ∈ xs
    · obtain ⟨p, e, hs, he⟩ := ih hx
      exact ⟨x :: p, e, by rw [hs]; rfl, he⟩
    · have : c = x := by
        rcases List.mem_cons.mp h with h1 | h1
        · exact h1
        · exact absurd h1 hx
      exact ⟨[], xs, by rw [this]; rfl, hx⟩

/-- For a name shorter than `2^31` the function returns a name. -/
theorem makeOutputFileName_returns (s : Str) (hlen : s.length < 2 ^ 31) :
    ∃ name, makeOutputFileName s = some name := by
  by_cases h : '.' ∈ s
  · obtain ⟨p, e, hs, he⟩ := split_at_last s '.' h
    have hs' : s = p ++ ".".toList ++ e := by rw [hs]; simp
    rw [hs'] at hlen ⊢
    exact ⟨_, makeOutputFileName_last_dot p e he hlen⟩
  · exact ⟨_, makeOutputFileName_no_dot s h⟩

/-- The index `2^31` becomes `-2^31` as an `int`, and as a `size_t` again a
position far beyond the end of any string. -/
theorem toSizeT_toInt_overflow :
    toSizeT (toInt (2 ^ 31)) = 2 ^ 64 - 2 ^ 31 ∧
    toSizeT (toInt (2 ^ 31) + 1) = 2 ^ 64 - 2 ^ 31 + 1 := by
  unfold toSizeT toInt
  constructor <;> norm_num <;> rfl

/-- A name whose last dot sits at index `2^31` gets no output name: the
second `substr` is asked for a position beyond the end and throws. -/
theorem makeOutputFileName_dot_at_2_31 (p : Str) (hp : p.length = 2 ^ 31) :
    makeOutputFileName (p ++ ".".toList ++ "png".toList) = none := by
  have hf : find_last_of (p ++ ".".toList ++ "png".toList) '.' = 2 ^ 31 := by
    unfold find_last_of
    have := find_last_of_go_last p "png".toList '.' (by decide) 0 npos
    rw [hp] at this
    simpa using this
  have hlen : (p ++ ".".toList ++ "png".toList).length = 2 ^ 31 + 4 := by
    simp only [List.length_append, hp]; rfl
  unfold makeOutputFileName
  simp only [hf, toSizeT_toInt_overflow.1, toSizeT_toInt_overflow.2]
  rw [if_neg (by unfold npos; omega)]
  have h2 : substr (p ++ ".".toList ++ "png".toList) (2 ^ 64 - 2 ^ 31 + 1)
      (p ++ ".".toList ++ "png".toList).length = none := by
    unfold substr
    rw [if_pos (by rw [hlen]; omega)]
  rw [h2]
  cases substr (p ++ ".".toList ++ "png".toList) 0 (2 ^ 64 - 2 ^ 31) <;> rfl

/-- Claim C7, at the input path made of `2^31` letters `a` followed by `.png`.
It is `p`, a dot and `png`, where `png` has no dot, but the result is not
`p`, then `_edges.`, then `png`: the position of the dot does not fit the
`int` that holds it, and the function leaves with an exception. -/
theorem long_name_gets_no_output_name :
    (∀ c ∈ "png".toList, c ≠ '.') ∧
    makeOutputFileName (List.replicate (2 ^ 31) 'a' ++ ".".toList ++ "png".toList) = none ∧
    makeOutputFileName (List.replicate (2 ^ 31) 'a' ++ ".".toList ++ "png".toList) ≠
      some (List.replicate (2 ^ 31) 'a' ++ "_edges.".toList ++ "png".toList) := by
  have h := makeOutputFileName_dot_at_2_31 (List.replicate (2 ^ 31) 'a')
    (List.length_replicate _ _)
  refine ⟨by decide, h, ?_⟩
  rw [h]
  exact fun e => Option.noConfusion e

/-- Claim C7, amended.  For an input path `s`: if `s` has no dot the result is
`s` followed by `_edges`; if `s` is shorter than `2^31` characters (the range
of the `int` that holds the position of the dot) and is `p`, a dot and `e`,
where `e` has no dot, the result is `p`, then `_edges.`, then `e`.  So
`photo.png` gives `photo_edges.png`, `photo` gives `photo_edges` and `a.b.png`
gives `a.b_edges.png`. -/
theorem makeOutputFileName_inserts_edges (s : Str) :
    ((∀ c ∈ s, c ≠ '.') → makeOutputFileName s = some (s ++ "_edges".toList)) ∧
    (∀ p e : Str, s = p ++ ".".toList ++ e → (∀ c ∈ e, c ≠ '.') → s.length < 2 ^ 31 →
      makeOutputFileName s = some (p ++ "_edges.".toList ++ e)) ∧
    makeOutputFileName "photo.png".toList = some "photo_edges.png".toList ∧
    makeOutputFileName "photo".toList = some "photo_edges".toList ∧
    makeOutputFileName "a.b.png".toList = some "a.b_edges.png".toList := by
  refine ⟨?_, ?_, by decide, by decide, by decide⟩
  · intro h
    exact makeOutputFileName_no_dot s (fun hm => h _ hm rfl)
  · intro p e hs he hlen
    subst hs
    exact makeOutputFileName_last_dot p e (fun hm => he _ hm rfl) hlen

/-- Claim C7, amended, at the name `archive.tar.gz`: it splits into `archive.tar`, a dot
and `gz`, which has no dot, it is shorter than `2^31`, and it gives
`archive.tar_edges.gz`. -/
theorem makeOutputFileName_inserts_edges_witness :
    "archive.tar.gz".toList = "archive.tar".toList ++ ".".toList ++ "gz".toList ∧
    (∀ c ∈ "gz".toList, c ≠ '.') ∧
    "archive.tar.gz".toList.length < 2 ^ 31 ∧
    makeOutputFileName "archive.tar.gz".toList = some "archive.tar_edges.gz".toList :=
  ⟨by decide, by decide, by decide,
   (makeOutputFileName_inserts_edges "archive.tar.gz".toList).2.1
     "archive.tar".toList "gz".toList (by decide) (by decide) (by decide)⟩

/-! ## Command line -/

/-- The last element of a list with one more element in front. -/
theorem getLast?_cons_getD {α : Type} (a d : α) (l : List α) :
    ((a :: l).getLast?).getD d = (l.getLast?).getD a := by
  cases l with
  | nil => rfl
  | cons b l =>
    rw [List.getLast?_cons_cons, List.getLast?_eq_getLast _ (List.cons_ne_nil b l)]
    rfl

/-- The option loop, started in any state, ends in the state the last options
of each group ask for. -/
theorem parseOptions_opts (i o : Str) (opts : List Opt) (ft : Int) (y t : Bool) :
    parseOptions i o (opts.map Opt.text) ft y t =
      .returned i o (((opts.filterMap Opt.family).getLast?).getD ft)
        (((opts.filterMap Opt.axis).getLast?).getD y) (t || opts.contains Opt.t) := by
  induction opts generalizing ft y t with
  | nil => simp [parseOptions]
  | cons a opts ih =>
    cases a <;>
      simp only [List.map_cons, Opt.text, parseOptions, List.filterMap_cons, Opt.family, Opt.axis,
        getLast?_cons_getD, ih, List.contains_cons] <;>
      simp <;> rfl

/-- Claim C8.  For an argument vector made of the program name, an input path
not starting with `-`, optionally an output path not starting with `-`, and any
sequence of the options `-p -r -sc -so -x -y -t`, the function returns the
input path, the output path (empty when there is none), the family of the last
family option (Sobel when there is none), the axis of the last axis option
(horizontal when there is none) and timing exactly when `-t` occurs.  So
`img.png -y -sc -t` selects vertical Scharr with timing. -/
theorem parseCommandLineArguments_options (prog inp : Str) (out : Option Str) (opts : List Opt)
    (hin : inp.head? ≠ some '-') (hout : ∀ o ∈ out, o.head? ≠ some '-') :
    parseCommandLineArguments (prog :: inp :: (out.toList ++ opts.map Opt.text)) =
      .returned inp (out.getD []) (lastFamily opts) (lastAxis opts) (timingRequested opts) ∧
    parseCommandLineArguments
      ["edgedetect".toList, "img.png".toList, "-y".toList, "-sc".toList, "-t".toList] =
      .returned "img.png".toList [] SCHARR_FILTER true true := by
  refine ⟨?_, by decide⟩
  have hfc : ∀ a : Str, a.head? ≠ some '-' → firstChar a ≠ '-' := by
    intro a ha
    cases a with
    | nil => decide
    | cons c cs => simpa [firstChar] using ha
  have hopt : ∀ a : Opt, firstChar a.text = '-' := by intro a; cases a <;> rfl
  unfold parseCommandLineArguments
  simp only [List.length_cons, List.getD_cons_succ, List.getD_cons_zero]
  rw [if_neg (by simp [hfc inp hin])]
  cases out with
  | some o =>
    have ho := hfc o (hout o rfl)
    simp only [Option.toList, List.cons_append, List.nil_append, List.length_cons,
      List.getD_cons_succ, List.getD_cons_zero, List.drop_succ_cons, List.drop_zero,
      Option.getD_some]
    rw [if_pos ⟨by omega, ho⟩, parseOptions_opts]
    simp [lastFamily, lastAxis, timingRequested]
  | none =>
    simp only [Option.toList, List.nil_append, Option.getD_none, List.drop_succ_cons,
      List.drop_zero]
    cases opts with
    | nil => simp [parseOptions, lastFamily, lastAxis, timingRequested]
    | cons a opts =>
      rw [if_neg (by simp [hopt a]), parseOptions_opts]
      simp [lastFamily, lastAxis, timingRequested]

/-- Claim C8 at `edgedetect in.png out.png -p -x -y -so -r`: both paths are
returned, the last family option `-r` selects Roberts, the last axis option
`-y` selects vertical, and timing is off. -/
theorem parseCommandLineArguments_options_witness :
    parseCommandLineArguments
      ["edgedetect".toList, "in.png".toList, "out.png".toList, "-p".toList, "-x".toList,
       "-y".toList, "-so".toList, "-r".toList] =
      .returned "in.png".toList "out.png".toList ROBERTS_FILTER true false :=
  (parseCommandLineArguments_options "edgedetect".toList "in.png".toList
    (some "out.png".toList) [Opt.p, Opt.x, Opt.y, Opt.so, Opt.r] (by decide)
    (by intro o ho; cases ho; decide)).1

/-! ## Batch -/

/-- When the output name is given or the input name is shorter than `2^31`,
the way `processImage` gives up control is decided by the answers of the
outside world as `imageOutcome` tells. -/
theorem processImage_outcome (env : ImageEnv) (input_filename output_filename : Str)
    (filter_type : Int) (y_axis show_timing : Bool)
    (h : output_filename ≠ [] ∨ input_filename.length < 2 ^ 31) :
    (processImage env input_filename output_filename filter_type y_axis show_timing).2 =
      imageOutcome env := by
  have hname : ∃ name, (if output_filename.length = 0 then makeOutputFileName input_filename
      else some output_filename) = some name := by
    by_cases h0 : output_filename.length = 0
    · rw [if_pos h0]
      rcases h with h | h
      · exact absurd (List.length_eq_zero.mp h0) h
      · exact makeOutputFileName_returns _ h
    · rw [if_neg h0]; exact ⟨_, rfl⟩
  obtain ⟨name, hn⟩ := hname
  unfold processImage imageOutcome
  rw [hn]
  cases env.imread with
  | none => rfl
  | some input_image =>
    simp only
    split_ifs <;> rfl

/-- A newline found: the characters before it are the first line and the
lines after it are those of the rest, which is shorter. -/
theorem untilNewline_some (b line rest : Str) (h : untilNewline b = (line, some rest)) :
    linesOf b = line :: linesOf rest ∧ rest.length < b.length := by
  induction b generalizing line with
  | nil => simp [untilNewline] at h
  | cons c cs ih =>
    unfold untilNewline at h
    by_cases hc : c = '\n'
    · rw [if_pos hc] at h
      simp only [Prod.mk.injEq, Option.some.injEq] at h
      obtain ⟨h1, h2⟩ := h
      subst h1 h2
      simp [linesOf, hc]
    · rw [if_neg hc] at h
      simp only [Prod.mk.injEq] at h
      obtain ⟨h1, h2⟩ := h
      have := ih (untilNewline cs).1 (Prod.ext rfl h2)
      subst h1
      simp only [linesOf, if_neg hc, this.1, List.length_cons]
      exact ⟨trivial, by omega⟩

/-- No newline found: the characters read are all that was left, and they are
the only line, unless nothing was left. -/
theorem untilNewline_none (b line : Str) (h : untilNewline b = (line, none)) :
    line = b ∧ linesOf b = (if b = [] then [] else [b]) := by
  induction b generalizing line with
  | nil => simp [untilNewline] at h; simp [h, linesOf]
  | cons c cs ih =>
    unfold untilNewline at h
    by_cases hc : c = '\n'
    · rw [if_pos hc] at h
      simp at h
    · rw [if_neg hc] at h
      simp only [Prod.mk.injEq] at h
      obtain ⟨h1, h2⟩ := h
      have := ih (untilNewline cs).1 (Prod.ext rfl h2)
      subst h1
      refine ⟨by rw [this.1], ?_⟩
      simp only [linesOf, if_neg hc, this.2]
      cases cs with
      | nil => simp
      | cons d ds => simp

/-- The loop, started at call number `i` on an input stream whose remaining
lines are `linesOf inputs.buf`, ends within `fuel` iterations when `fuel`
exceeds the number of characters left, and its calls run through the
remaining lines until the first call that does not return. -/
theorem readLoop_spec (env : BatchEnv) (ft : Int) (y t : Bool) :
    ∀ (fuel i : Nat) (inputs outputs : IfStream) (ni no : Str),
      (inputs.good = false → inputs.buf = []) → inputs.buf.length < fuel →
      ∃ calls outcome, readLoop env ft y t fuel i inputs outputs ni no = some (calls, outcome) ∧
        (∃ rest, linesOf inputs.buf = calls.map Call.next_input ++ rest ∧
          ((∀ c ∈ calls, c.result.2.isReturned = true) →
            rest = [] ∧ outcome = .returned EXIT_SUCCESS)) ∧
        (∀ j c, calls[j]? = some c →
          c.result = processImage (env.image (i + j)) c.next_input c.next_output ft y t) ∧
        (∀ j c, calls[j]? = some c → j + 1 < calls.length → c.result.2.isReturned = true) ∧
        (∀ c, calls.getLast? = some c → c.result.2.isReturned = false →
          outcome = c.result.2) := by
  intro fuel
  induction fuel with
  | zero => intro i inputs outputs ni no _ h; omega
  | succ fuel ih =>
    intro i inputs outputs ni no hinv hlen
    have stop : (getline inputs ni).1.fail = true → linesOf inputs.buf = [] →
        ∃ calls outcome,
          readLoop env ft y t (fuel + 1) i inputs outputs ni no = some (calls, outcome) ∧
        (∃ rest, linesOf inputs.buf = calls.map Call.next_input ++ rest ∧
          ((∀ c ∈ calls, c.result.2.isReturned = true) →
            rest = [] ∧ outcome = .returned EXIT_SUCCESS)) ∧
        (∀ j c, calls[j]? = some c →
          c.result = processImage (env.image (i + j)) c.next_input c.next_output ft y t) ∧
        (∀ j c, calls[j]? = some c → j + 1 < calls.length → c.result.2.isReturned = true) ∧
        (∀ c, calls.getLast? = some c → c.result.2.isReturned = false →
          outcome = c.result.2) := by
      intro hf hl
      refine ⟨[], .returned EXIT_SUCCESS, ?_, ⟨[], by simp [hl], fun _ => ⟨rfl, rfl⟩⟩, ?_, ?_, ?_⟩
      · simp only [readLoop, hf, if_true]
      · intro j c h; simp at h
      · intro j c h; simp at h
      · intro c h; simp at h
    have step : ∀ line rest', (getline inputs ni).1.fail = false →
        (getline inputs ni).2 = line →
        linesOf inputs.buf = line :: linesOf (getline inputs ni).1.buf →
        ((getline inputs ni).1.good = false → (getline inputs ni).1.buf = []) →
        (getline inputs ni).1.buf.length < fuel → rest' = linesOf (getline inputs ni).1.buf →
        ∃ calls outcome,
          readLoop env ft y t (fuel + 1) i inputs outputs ni no = some (calls, outcome) ∧
        (∃ rest, linesOf inputs.buf = calls.map Call.next_input ++ rest ∧
          ((∀ c ∈ calls, c.result.2.isReturned = true) →
            rest = [] ∧ outcome = .returned EXIT_SUCCESS)) ∧
        (∀ j c, calls[j]? = some c →
          c.result = processImage (env.image (i + j)) c.next_input c.next_output ft y t) ∧
        (∀ j c, calls[j]? = some c → j + 1 < calls.length → c.result.2.isReturned = true) ∧
        (∀ c, calls.getLast? = some c → c.result.2.isReturned = false →
          outcome = c.result.2) := by
      intro line rest' hf hline hl hinv' hlen' hrest
      obtain ⟨calls, outcome, hrec, ⟨rest, hr1, hr2⟩, hc1, hc2, hc3⟩ :=
        ih (i + 1) (getline inputs ni).1 (getline outputs no).1 (getline inputs ni).2
          (getline outputs no).2 hinv' hlen'
      generalize hres : processImage (env.image i) (getline inputs ni).2 (getline outputs no).2
        ft y t = r at *
      cases hout : r.2 with
      | returned code =>
        refine ⟨⟨(getline inputs ni).2, (getline outputs no).2, r⟩ :: calls, outcome, ?_,
          ⟨rest, ?_, ?_⟩, ?_, ?_, ?_⟩
        · simp only [readLoop, hf, hres, hout, hrec]; simp
        · rw [hl, hr1]; simp [hline]
        · intro hall
          exact hr2 (fun c hc => hall c (List.mem_cons_of_mem _ hc))
        · intro j c hj
          cases j with
          | zero => simp at hj; subst hj; simpa using hres.symm
          | succ j =>
            simp at hj
            have := hc1 j c hj
            rw [this]; congr 2; omega
        · intro j c hj hlt
          cases j with
          | zero => simp at hj; subst hj; simp [hout, Outcome.isReturned]
          | succ j =>
            simp at hj hlt
            exact hc2 j c hj (by omega)
        · intro c hlast hnr
          cases calls with
          | nil =>
            simp at hlast; subst hlast
            simp [hout, Outcome.isReturned] at hnr
          | cons d ds =>
            rw [List.getLast?_cons_cons] at hlast
            exact hc3 c hlast hnr
      | exited code =>
        refine ⟨[⟨(getline inputs ni).2, (getline outputs no).2, r⟩], r.2, ?_,
          ⟨rest', ?_, ?_⟩, ?_, ?_, ?_⟩
        · simp only [readLoop, hf, hres, hout]; simp
        · rw [hl, hrest]; simp [hline]
        · intro hall
          have := hall _ (List.mem_singleton_self _)
          simp [hout, Outcome.isReturned] at this
        · intro j c hj
          cases j with
          | zero => simp at hj; subst hj; simpa using hres.symm
          | succ j => simp at hj
        · intro j c hj hlt
          simp at hlt
        · intro c hlast _
          simp at hlast; subst hlast; rfl
      | terminated =>
        refine ⟨[⟨(getline inputs ni).2, (getline outputs no).2, r⟩], r.2, ?_,
          ⟨rest', ?_, ?_⟩, ?_, ?_, ?_⟩
        · simp only [readLoop, hf, hres, hout]; simp
        · rw [hl, hrest]; simp [hline]
        · intro hall
          have := hall _ (List.mem_singleton_self _)
          simp [hout, Outcome.isReturned] at this
        · intro j c hj
          cases j with
          | zero => simp at hj; subst hj; simpa using hres.symm
          | succ j => simp at hj
        · intro j c hj hlt
          simp at hlt
        · intro c hlast _
          simp at hlast; subst hlast; rfl
    by_cases hg : inputs.good = true
    · cases hu : untilNewline inputs.buf with
      | mk line more =>
        cases more with
        | some rest =>
          have hgl : getline inputs ni =
              ({ buf := rest, eofbit := false, failbit := false }, line) := by
            simp [getline, hg, hu]
          obtain ⟨h1, h2⟩ := untilNewline_some _ _ _ hu
          apply step line (linesOf rest)
          · rw [hgl]; rfl
          · rw [hgl]
          · rw [hgl]; exact h1
          · rw [hgl]; intro h; simp [IfStream.good] at h
          · rw [hgl]; simp only; omega
          · rw [hgl]
        | none =>
          have hgl : getline inputs ni =
              ({ buf := [], eofbit := true, failbit := line.isEmpty }, line) := by
            simp [getline, hg, hu]
          obtain ⟨h1, h2⟩ := untilNewline_none _ _ hu
          by_cases hb : inputs.buf = []
          · apply stop
            · rw [hgl]; simp [IfStream.fail, h1, hb]
            · rw [h2, if_pos hb]
          · apply step line []
            · rw [hgl]; simp [IfStream.fail, h1, hb]
            · rw [hgl]
            · rw [hgl, h2, if_neg hb, h1]; simp [linesOf]
            · rw [hgl]; intro _; rfl
            · rw [hgl]; simp only [List.length_nil]
              have : 0 < inputs.buf.length := List.length_pos.mpr hb
              omega
            · rw [hgl]; simp [linesOf]
    · have hg' : inputs.good = false := by simpa using hg
      apply stop
      · simp [getline, hg', IfStream.fail]
      · rw [hinv hg']; rfl

/-- The batch of three images whose second cannot be decoded processes all
three, in order, and returns a success. -/
theorem decode_failure_does_not_stop_batch :
    (readInputFileList decodeFailureBatch "in.txt".toList [] SOBEL_FILTER false false).map
        (fun r => (r.1.map (fun c => (c.next_input, c.result.2)), r.2)) =
      some ([("a.png".toList, Outcome.returned EXIT_SUCCESS),
             ("b.png".toList, Outcome.returned EXIT_FAILURE),
             ("c.png".toList, Outcome.returned EXIT_SUCCESS)],
            Outcome.returned EXIT_SUCCESS) := by
  decide

/-- Claim C5, at the batch of two images whose first upload fails.  The input
list has the two lines `a.png` and `b.png`, but `processImage` is called for
`a.png` only: that call leaves through `exit`, and the process with it. -/
theorem upload_failure_stops_batch :
    linesOf "a.png\nb.png\n".toList = ["a.png".toList, "b.png".toList] ∧
    (readInputFileList uploadFailureBatch "in.txt".toList [] SOBEL_FILTER false false).map
        (fun r => (r.1.map Call.next_input, r.2)) =
      some (["a.png".toList], Outcome.exited EXIT_FAILURE) := by
  decide

/-- Claim C5, amended.  For an input list that can be opened, and an output
list that is absent or can be opened, `readInputFileList` ends and calls
`processImage` once per line of the input list, in list order, up to and
including the first line whose processing does not return (an upload failure
or a write failure, which leave through `exit`); when there is no such line
every line is processed and the batch returns a success.  A decode failure
returns, so it never keeps the later lines from being processed. -/
theorem batch_runs_until_first_exit (env : BatchEnv) (input_file output_file : Str)
    (filter_type : Int) (y_axis show_timing : Bool) (contents : Str)
    (hin : env.files input_file = some contents)
    (hout : output_file = [] ∨ env.files output_file ≠ none) :
    ∃ calls outcome,
      readInputFileList env input_file output_file filter_type y_axis show_timing =
        some (calls, outcome) ∧
      RunsUntilFirstExit env filter_type y_axis show_timing (linesOf contents) calls outcome := by
  have hguard : ¬ (((decide (output_file.length ≠ 0)) = true) ∧ env.files output_file = none) := by
    rintro ⟨h1, h2⟩
    rcases hout with h | h
    · simp [h] at h1
    · exact h h2
  obtain ⟨calls, outcome, hrun, hseg, hcall, hret, hlast⟩ :=
    readLoop_spec env filter_type y_axis show_timing (contents.length + 1) 0
      (openStream (some contents))
      (openStream (if (decide (output_file.length ≠ 0)) = true then env.files output_file
        else none)) [] []
      (by intro h; simp [openStream, IfStream.good] at h)
      (by simp [openStream])
  refine ⟨calls, outcome, ?_, ?_, ?_, hret, hlast, ?_⟩
  · unfold readInputFileList
    simp only [hin]
    rw [if_neg hguard]
    exact hrun
  · simpa [openStream] using hseg
  · intro j c hj
    simpa using hcall j c hj
  · intro j c hj hshort
    have := hcall j c hj
    rw [this, processImage_outcome _ _ _ _ _ _ (Or.inr hshort)]
    simp

/-- Claim C5, amended, at the batch of three images whose second cannot be
decoded: the input list can be opened and there is no output list. -/
theorem batch_runs_until_first_exit_witness :
    ∃ calls outcome,
      readInputFileList decodeFailureBatch "in.txt".toList [] SOBEL_FILTER false false =
        some (calls, outcome) ∧
      RunsUntilFirstExit decodeFailureBatch SOBEL_FILTER false false
        (linesOf "a.png\nb.png\nc.png\n".toList) calls outcome :=
  batch_runs_until_first_exit decodeFailureBatch "in.txt".toList [] SOBEL_FILTER false false
    "a.png\nb.png\nc.png\n".toList (by decide) (Or.inl rfl)

/-- Claim C6, at the batch of two images with the output list `x.png`, one
line that no newline ends.  The second call of `processImage` should get an
empty output path, the list having one line only; it gets `x.png` again. -/
theorem short_output_list_repeats_last_name :
    linesOf "x.png".toList = ["x.png".toList] ∧
    (readInputFileList shortOutputListBatch "in.txt".toList "out.txt".toList SOBEL_FILTER false
        false).map (fun r => r.1.map (fun c => (c.next_input, c.next_output))) =
      some [("a.png".toList, "x.png".toList), ("b.png".toList, "x.png".toList)] := by
  decide

/-- With the same output list ended by a newline, the second call gets an
empty output path. -/
theorem ended_output_list_gives_empty_name :
    (readInputFileList endedOutputListBatch "in.txt".toList "out.txt".toList SOBEL_FILTER false
        false).map (fun r => r.1.map (fun c => (c.next_input, c.next_output))) =
      some [("a.png".toList, "x.png".toList), ("b.png".toList, [])] := by
  decide

end EdgeDetect
